import Mathlib

/-!
Shallow embedding of `business/auction.go` from nizigama/web3-auction-api.

The five operations of the `Connection` capability (`GetAuctionStatus`,
`ListAllBids`, `Bid`, `Stats`, `Deploy`) are translated as pure Lean
functions over an explicit configuration record (the environment-variable
lookups), a chain oracle (the results the ethclient / contract binding
calls would return), a signer oracle (success or failure of each local
keystore / crypto step) and an initial keystore entry count.  Each
operation returns its Go result together with the number of network round
trips performed and, for the signing operations, the number of transient
keystore entries present at return.  Machine integers (`int64`, `uint64`)
are modelled as `Int` / `Nat` with explicit reduction modulo `2^64` where
the Go code converts or can overflow.
-/

deriving instance DecidableEq for Except

namespace Web3Auction

/-- Go `error` values produced by this package, tagged by provenance:
`config` an `errors.New` at a configuration-check site, `lib` an error
propagated from a library / RPC call (carrying its text), and the two
domain sentinel types `HigherBidAlreadySubmitted{}` and `AuctionEnded{}`. -/
inductive GoErr where
  | config (msg : String)
  | lib (msg : String)
  | higherBid
  | auctionEnded
deriving DecidableEq, Repr

/-- `HigherBidAlreadySubmitted.Error()` in auction.go. -/
def higherBidErrText : String := "There already is a higher bid"

/-- `AuctionEnded.Error()` in auction.go. -/
def auctionEndedErrText : String := "Auction already ended"

/-- The environment variables the package reads via `os.LookupEnv`;
`none` means the variable is absent. -/
structure Config where
  instanceUrl : Option String
  contractAddr : Option String
  bidderKey : Option String
  deployerKey : Option String

/-- `math/big` `Int.Uint64()` on a non-negative value: the low 64 bits. -/
def toUint64 (n : Nat) : Nat := n % 2 ^ 64

/-- Reduce an integer into the `int64` range by two's-complement wrapping,
as Go `int64` arithmetic and `math/big` `Int.Int64()` do. -/
def wrap64 (z : Int) : Int := (z + 2 ^ 63) % 2 ^ 64 - 2 ^ 63

/-- `math/big` `Int.Int64()` on a non-negative value (the `*big.Int`
obtained from decoding a `uint256`): low 64 bits read as a signed word. -/
def toInt64 (n : Nat) : Int := wrap64 (n : Int)

/-- Go `strings.Contains hay needle`. -/
def strContains (hay needle : String) : Bool :=
  hay.toList.tails.any fun t => needle.toList.isPrefixOf t

/-- `AuctionStatus` struct. -/
structure AuctionStatus where
  Ended : Bool
  HighestBid : Int
deriving DecidableEq, Repr

/-- `Stats` struct. -/
structure StatsRec where
  Bids : Int
  Volume : Int
deriving DecidableEq, Repr

/-- `Bid` struct (the event projection returned by `ListAllBids`). -/
structure BidRec where
  Sender : String
  Amount : Int
deriving DecidableEq, Repr

/-- One entry of the slice returned by `FilterLogs`, represented by what
`contractAbi.Unpack("HighestBidIncreased", log.Data)` yields on it:
either an unpack error (carrying its text) or the pair
(`event[0].(common.Address).String()`, `event[1].(*big.Int)` as the
non-negative `uint256` value). -/
structure EthLog where
  unpack : Except String (String × Nat)
deriving DecidableEq, Repr

/-- The `ethereum.FilterQuery` struct, with the fields the Go struct has
that are relevant to what is fetched. -/
structure FilterQuery where
  Addresses : List String
  Topics : List (List String)
  FromBlock : Option Nat
  ToBlock : Option Nat
deriving DecidableEq

/-- The query built by `ListAllBids` and `Stats`: only `Addresses` is set;
no topic filter and no block range. -/
def bidsQuery (addr : String) : FilterQuery :=
  { Addresses := [addr], Topics := [], FromBlock := none, ToBlock := none }

/-- Oracle for the remote node and for the two local fallible constructors:
the result each underlying call would return if performed.  `bindOk` is
`NewSimpleAuction` (local ABI parse), `abiJsonOk` is `abi.JSON` (local);
all other fields stand for one network round trip each. -/
structure Chain where
  bindOk : Bool
  abiJsonOk : Bool
  auctionEndTime : Except String Nat
  headerTime : Except String Nat
  highestBid : Except String Nat
  filterLogs : FilterQuery → Except String (List EthLog)
  chainId : Except String Nat
  bidSubmit : Int → Except String Unit
  deploySubmit : Int → String → Except String (Nat × Nat)

/-- Oracle for the local signing steps of `Bid` / `Deploy`: whether each
keystore / crypto library call succeeds.  `importOk` creating the
transient credential entry and `deleteOk` removing it are the two calls
that change the keystore entry count. -/
structure SignerEnv where
  hexOk : Bool
  ecdsaOk : Bool
  importOk : Bool
  exportOk : Bool
  deleteOk : Bool
  transactorOk : Bool

/-- Result of `NewBlockchainConnection`. -/
structure ConnResult where
  result : Except GoErr Unit
  netCalls : Nat
deriving DecidableEq, Repr

/-- `NewBlockchainConnection`: look up `INSTANCE_URL`, then `ethclient.Dial`
(counted as the first network attempt). -/
def NewBlockchainConnection (cfg : Config) (dialOk : Bool) : ConnResult :=
  match cfg.instanceUrl with
  | none =>
      ⟨.error (.config "Instance url is needed to connect to an ethereum node"), 0⟩
  | some _ =>
      if dialOk then ⟨.ok (), 1⟩ else ⟨.error (.lib "dial failed"), 1⟩

/-- Result of `GetAuctionStatus`. -/
structure StatusResult where
  result : Except GoErr AuctionStatus
  netCalls : Nat
deriving DecidableEq, Repr

/-- `EthConnection.GetAuctionStatus`: check `CONTRACT_DEPLOYMENT_ADDR`,
bind the contract, then three network reads in order (`AuctionEndTime`,
`HeaderByNumber`, `HighestBid`), each aborting the call on error.
`Ended` is `header.Time > endTime.Uint64()`. -/
def GetAuctionStatus (cfg : Config) (ch : Chain) : StatusResult :=
  match cfg.contractAddr with
  | none =>
      ⟨.error (.config "Instance url is needed to connect to an ethereum node"), 0⟩
  | some _ =>
      if !ch.bindOk then ⟨.error (.lib "NewSimpleAuction failed"), 0⟩ else
      match ch.auctionEndTime with
      | .error e => ⟨.error (.lib e), 1⟩
      | .ok endTime =>
          match ch.headerTime with
          | .error e => ⟨.error (.lib e), 2⟩
          | .ok hTime =>
              let ended := decide (hTime > toUint64 endTime)
              match ch.highestBid with
              | .error e => ⟨.error (.lib e), 3⟩
              | .ok hb => ⟨.ok ⟨ended, toInt64 hb⟩, 3⟩

/-- The body of the `ListAllBids` loop: unpack each log entry in order,
aborting on the first unpack error, projecting each success to a `Bid`
with `Amount = event[1].Int64()`. -/
def decodeBids : List EthLog → Except String (List BidRec)
  | [] => .ok []
  | l :: ls =>
      match l.unpack with
      | .error e => .error e
      | .ok (snd, amt) =>
          match decodeBids ls with
          | .error e => .error e
          | .ok bs => .ok (⟨snd, toInt64 amt⟩ :: bs)

/-- The projection applied to one successfully unpacked log entry. -/
def decodeOne (l : EthLog) : BidRec :=
  match l.unpack with
  | .ok (snd, amt) => ⟨snd, toInt64 amt⟩
  | .error _ => ⟨"", 0⟩

/-- Result of `ListAllBids`. -/
structure ListResult where
  result : Except GoErr (List BidRec)
  netCalls : Nat
deriving DecidableEq, Repr

/-- `EthConnection.ListAllBids`: check `CONTRACT_DEPLOYMENT_ADDR`, fetch
logs with `bidsQuery`, parse the ABI, decode every entry. -/
def ListAllBids (cfg : Config) (ch : Chain) : ListResult :=
  match cfg.contractAddr with
  | none =>
      ⟨.error (.config "contract address is needed to connect to the auction"), 0⟩
  | some addr =>
      match ch.filterLogs (bidsQuery addr) with
      | .error e => ⟨.error (.lib e), 1⟩
      | .ok logs =>
          if !ch.abiJsonOk then ⟨.error (.lib "abi.JSON failed"), 1⟩ else
          match decodeBids logs with
          | .error e => ⟨.error (.lib e), 1⟩
          | .ok bs => ⟨.ok bs, 1⟩

/-- The body of the `Stats` loop over the same log entries: `Bids += 1`,
`Volume += event[1].Int64()`, both in `int64` arithmetic. -/
def statsLoop : List EthLog → StatsRec → Except String StatsRec
  | [], s => .ok s
  | l :: ls, s =>
      match l.unpack with
      | .error e => .error e
      | .ok (_, amt) =>
          statsLoop ls ⟨wrap64 (s.Bids + 1), wrap64 (s.Volume + toInt64 amt)⟩

/-- Result of `Stats`. -/
structure StatsResult where
  result : Except GoErr StatsRec
  netCalls : Nat
deriving DecidableEq, Repr

/-- `EthConnection.Stats`: same configuration check, fetch and ABI parse as
`ListAllBids`, folding the decoded stream into `{Bids, Volume}`. -/
def Stats (cfg : Config) (ch : Chain) : StatsResult :=
  match cfg.contractAddr with
  | none =>
      ⟨.error (.config "contract address is needed to connect to the auction"), 0⟩
  | some addr =>
      match ch.filterLogs (bidsQuery addr) with
      | .error e => ⟨.error (.lib e), 1⟩
      | .ok logs =>
          if !ch.abiJsonOk then ⟨.error (.lib "abi.JSON failed"), 1⟩ else
          match statsLoop logs ⟨0, 0⟩ with
          | .error e => ⟨.error (.lib e), 1⟩
          | .ok s => ⟨.ok s, 1⟩

/-- Classification of the error returned by `acn.Bid(auth)`, exactly as in
auction.go: `strings.Contains` against the higher-bid phrase first, then
the already-ended phrase, else the error is returned unchanged. -/
def classifyBidErr (s : String) : GoErr :=
  if strContains s higherBidErrText then .higherBid
  else if strContains s auctionEndedErrText then .auctionEnded
  else .lib s

/-- Result of `Bid`: the returned error (if any), the network round trips
performed, the transient keystore entries present at return, and the
transaction value attached if the submission was reached. -/
structure BidResult where
  result : Except GoErr Unit
  netCalls : Nat
  ksEntries : Nat
  submittedValue : Option Int
deriving DecidableEq, Repr

/-- `EthConnection.Bid`: configuration checks, contract binding, the
ephemeral-signing sequence (hex decode, `ToECDSA`, `ImportECDSA` which
creates the transient entry, `Export`, `Delete` which removes it), then
`ChainID`, `NewTransactorWithChainID`, `auth.Value = big.NewInt(amount)`
and `acn.Bid`, with the rejection-text classification.  Each failing step
returns immediately, as the Go code does. -/
def Bid (cfg : Config) (ch : Chain) (se : SignerEnv) (ks0 : Nat)
    (amount : Int) : BidResult :=
  match cfg.contractAddr with
  | none =>
      ⟨.error (.config "contract address is needed to connect to the auction"),
        0, ks0, none⟩
  | some _ =>
      if !ch.bindOk then ⟨.error (.lib "NewSimpleAuction failed"), 0, ks0, none⟩ else
      match cfg.bidderKey with
      | none =>
          ⟨.error (.config "bidder private is required to submit a bid to the auction"),
            0, ks0, none⟩
      | some _ =>
          if !se.hexOk then ⟨.error (.lib "hex decode failed"), 0, ks0, none⟩ else
          if !se.ecdsaOk then ⟨.error (.lib "ToECDSA failed"), 0, ks0, none⟩ else
          if !se.importOk then ⟨.error (.lib "ImportECDSA failed"), 0, ks0, none⟩ else
          if !se.exportOk then ⟨.error (.lib "Export failed"), 0, ks0 + 1, none⟩ else
          if !se.deleteOk then ⟨.error (.lib "Delete failed"), 0, ks0 + 1, none⟩ else
          match ch.chainId with
          | .error e => ⟨.error (.lib e), 1, ks0, none⟩
          | .ok _ =>
              if !se.transactorOk then
                ⟨.error (.lib "NewTransactorWithChainID failed"), 1, ks0, none⟩
              else
                match ch.bidSubmit amount with
                | .ok _ => ⟨.ok (), 2, ks0, some amount⟩
                | .error s => ⟨.error (classifyBidErr s), 2, ks0, some amount⟩

/-- Hexadecimal digit character (lower case), for `n < 16`. -/
def hexDigit (n : Nat) : Char :=
  if n < 10 then Char.ofNat (48 + n) else Char.ofNat (87 + n)

/-- Fixed-width big-endian hexadecimal rendering of a natural number. -/
def hexChars : Nat → Nat → List Char
  | 0, _ => []
  | w + 1, n => hexChars w (n / 16) ++ [hexDigit (n % 16)]

/-- `common.Address.String()`: `0x` followed by the 40 hex digits of the
20-byte address.  (The EIP-55 checksum of the real library only adjusts
the letter case of those digits; the case mapping is abstracted here.) -/
def addressString (n : Nat) : String :=
  ⟨'0' :: 'x' :: hexChars 40 (n % 2 ^ 160)⟩

/-- `common.Hash.String()` on `tx.Hash()`: `0x` followed by the 64 hex
digits of the 32-byte transaction hash. -/
def hashString (n : Nat) : String :=
  ⟨'0' :: 'x' :: hexChars 64 (n % 2 ^ 256)⟩

/-- Result of `Deploy`. -/
structure DeployResult where
  result : Except GoErr (String × String)
  netCalls : Nat
  ksEntries : Nat
deriving DecidableEq, Repr

/-- `EthConnection.Deploy`: check `DEPLOYER_ACC_PRIVATE_KEY`, run the same
ephemeral-signing sequence as `Bid`, then `ChainID`,
`NewTransactorWithChainID` and `DeploySimpleAuction`, returning
`address.String()` and `tx.Hash().String()` on success. -/
def Deploy (cfg : Config) (ch : Chain) (se : SignerEnv) (ks0 : Nat)
    (durationInSeconds : Int) (beneficiaryAddress : String) : DeployResult :=
  match cfg.deployerKey with
  | none =>
      ⟨.error (.config "deployer private is required to deploy the auction contract"),
        0, ks0⟩
  | some _ =>
      if !se.hexOk then ⟨.error (.lib "hex decode failed"), 0, ks0⟩ else
      if !se.ecdsaOk then ⟨.error (.lib "ToECDSA failed"), 0, ks0⟩ else
      if !se.importOk then ⟨.error (.lib "ImportECDSA failed"), 0, ks0⟩ else
      if !se.exportOk then ⟨.error (.lib "Export failed"), 0, ks0 + 1⟩ else
      if !se.deleteOk then ⟨.error (.lib "Delete failed"), 0, ks0 + 1⟩ else
      match ch.chainId with
      | .error e => ⟨.error (.lib e), 1, ks0⟩
      | .ok _ =>
          if !se.transactorOk then
            ⟨.error (.lib "NewTransactorWithChainID failed"), 1, ks0⟩
          else
            match ch.deploySubmit durationInSeconds beneficiaryAddress with
            | .error e => ⟨.error (.lib e), 2, ks0⟩
            | .ok (a, t) => ⟨.ok (addressString a, hashString t), 2, ks0⟩

/-- `Except.isOk` as a plain Boolean discriminator. -/
def isOkB : Except α β → Bool
  | .ok _ => true
  | .error _ => false

/-- The `int64` sum of a list of `int64` values: the left fold the Go code
performs, each addition wrapping in the `int64` range. -/
def sumInt64 (xs : List Int) : Int :=
  xs.foldl (fun a x => wrap64 (a + x)) 0

section Helpers

theorem wrap64_eq_self (z : Int) (h1 : -(2 ^ 63) ≤ z) (h2 : z < 2 ^ 63) :
    wrap64 z = z := by
  unfold wrap64
  omega

theorem decodeBids_length :
    ∀ (logs : List EthLog) (bs : List BidRec),
      decodeBids logs = .ok bs → bs.length = logs.length := by
  intro logs
  induction logs with
  | nil => intro bs h; simp [decodeBids] at h; simp [← h]
  | cons l ls ih =>
      intro bs h
      simp only [decodeBids] at h
      cases hu : l.unpack with
      | error e => rw [hu] at h; exact absurd h (by simp)
      | ok p =>
          rw [hu] at h
          cases hr : decodeBids ls with
          | error e => rw [hr] at h; exact absurd h (by simp)
          | ok bs2 =>
              rw [hr] at h
              cases h
              simp [ih bs2 hr]

theorem decodeBids_map :
    ∀ logs : List EthLog, (∀ l ∈ logs, isOkB l.unpack = true) →
      decodeBids logs = .ok (logs.map decodeOne) := by
  intro logs
  induction logs with
  | nil => intro _; simp [decodeBids]
  | cons l ls ih =>
      intro hall
      have hl : isOkB l.unpack = true := hall l (by simp)
      cases hu : l.unpack with
      | error e => rw [hu] at hl; simp [isOkB] at hl
      | ok p =>
          have hrest : decodeBids ls = .ok (ls.map decodeOne) :=
            ih fun x hx => hall x (by simp [hx])
          obtain ⟨snd, amt⟩ := p
          simp [decodeBids, hu, hrest, decodeOne]

theorem decodeBids_error_of_mem :
    ∀ logs : List EthLog, ∀ l ∈ logs, isOkB l.unpack = false →
      ∃ e, decodeBids logs = .error e := by
  intro logs
  induction logs with
  | nil => intro l hl; exact absurd hl (by simp)
  | cons x ls ih =>
      intro l hl hbad
      cases hu : x.unpack with
      | error e => exact ⟨e, by simp [decodeBids, hu]⟩
      | ok p =>
          rcases List.mem_cons.mp hl with heq | hmem
          · rw [heq, hu] at hbad; simp [isOkB] at hbad
          · obtain ⟨e, he⟩ := ih l hmem hbad
            obtain ⟨snd, amt⟩ := p
            exact ⟨e, by simp [decodeBids, hu, he]⟩

theorem statsLoop_error_of_mem :
    ∀ logs : List EthLog, ∀ l ∈ logs, isOkB l.unpack = false →
      ∀ s : StatsRec, ∃ e, statsLoop logs s = .error e := by
  intro logs
  induction logs with
  | nil => intro l hl; exact absurd hl (by simp)
  | cons x ls ih =>
      intro l hl hbad s
      cases hu : x.unpack with
      | error e => exact ⟨e, by simp [statsLoop, hu]⟩
      | ok p =>
          rcases List.mem_cons.mp hl with heq | hmem
          · rw [heq, hu] at hbad; simp [isOkB] at hbad
          · obtain ⟨snd, amt⟩ := p
            obtain ⟨e, he⟩ := ih l hmem hbad
              ⟨wrap64 (s.Bids + 1), wrap64 (s.Volume + toInt64 amt)⟩
            exact ⟨e, by simp [statsLoop, hu, he]⟩

theorem statsLoop_of_decode :
    ∀ (logs : List EthLog) (bs : List BidRec) (s : StatsRec),
      decodeBids logs = .ok bs →
      statsLoop logs s =
        .ok ⟨bs.foldl (fun a _ => wrap64 (a + 1)) s.Bids,
             bs.foldl (fun a b => wrap64 (a + b.Amount)) s.Volume⟩ := by
  intro logs
  induction logs with
  | nil =>
      intro bs s h
      simp [decodeBids] at h
      subst h
      rfl
  | cons l ls ih =>
      intro bs s h
      simp only [decodeBids] at h
      cases hu : l.unpack with
      | error e => rw [hu] at h; exact absurd h (by simp)
      | ok p =>
          rw [hu] at h
          cases hr : decodeBids ls with
          | error e => rw [hr] at h; exact absurd h (by simp)
          | ok bs2 =>
              rw [hr] at h
              obtain ⟨snd, amt⟩ := p
              cases h
              simp [statsLoop, hu, ih bs2 _ hr]

theorem foldl_wrapcount :
    ∀ (bs : List BidRec) (k : Int), 0 ≤ k → k + bs.length < 2 ^ 63 →
      bs.foldl (fun a _ => wrap64 (a + 1)) k = k + bs.length := by
  intro bs
  induction bs with
  | nil => intro k _ _; simp
  | cons b bs ih =>
      intro k hk hlt
      rw [List.length_cons] at hlt
      have hw : wrap64 (k + 1) = k + 1 := wrap64_eq_self _ (by omega) (by omega)
      rw [List.foldl_cons, hw, ih (k + 1) (by omega) (by omega), List.length_cons]
      omega

theorem length_hexChars : ∀ w n, (hexChars w n).length = w := by
  intro w
  induction w with
  | zero => intro n; simp [hexChars]
  | succ w ih => intro n; simp [hexChars, ih]

end Helpers

section Instances

/-- A configuration with every variable set. -/
def cfgAll : Config :=
  ⟨some "http://localhost:8545", some "0xc0ffee", some "aabb", some "ccdd"⟩

/-- A configuration with every variable absent. -/
def cfgNone : Config := ⟨none, none, none, none⟩

/-- A signer oracle where every local signing step succeeds. -/
def seAll : SignerEnv := ⟨true, true, true, true, true, true⟩

/-- A signer oracle where `ks.Export` fails and everything else succeeds. -/
def seExportFail : SignerEnv := ⟨true, true, true, false, true, true⟩

/-- A log entry that unpacks to sender `"0xsend"` and amount `5`. -/
def logA : EthLog := ⟨.ok ("0xsend", 5)⟩

/-- A log entry whose data does not unpack against the event schema. -/
def logBad : EthLog := ⟨.error "abi: cannot unpack"⟩

/-- A healthy chain oracle: every call succeeds, one decodable log entry,
chain time `101` past end time `100`, highest bid `7`. -/
def chainA : Chain :=
  ⟨true, true, .ok 100, .ok 101, .ok 7, fun _ => .ok [logA], .ok 1,
    fun _ => .ok (), fun _ _ => .ok (3, 4)⟩

/-- A chain oracle whose log set contains an undecodable entry. -/
def chainBad : Chain :=
  ⟨true, true, .ok 100, .ok 101, .ok 7, fun _ => .ok [logA, logBad], .ok 1,
    fun _ => .ok (), fun _ _ => .ok (3, 4)⟩

/-- A chain oracle whose bid submission is rejected with a text containing
both known phrases. -/
def chainBothPhrases : Chain :=
  ⟨true, true, .ok 100, .ok 101, .ok 7, fun _ => .ok [], .ok 1,
    fun _ => .error "Auction already ended: There already is a higher bid",
    fun _ _ => .ok (3, 4)⟩

/-- A chain oracle whose bid submission is rejected with an unrelated text. -/
def chainRejectBoom : Chain :=
  ⟨true, true, .ok 100, .ok 101, .ok 7, fun _ => .ok [], .ok 1,
    fun _ => .error "connection reset by peer", fun _ _ => .ok (3, 4)⟩

/-- A chain oracle whose stored auction end time exceeds `2^64`. -/
def chainBigEnd : Chain :=
  ⟨true, true, .ok (2 ^ 64), .ok 1, .ok 0, fun _ => .ok [], .ok 1,
    fun _ => .ok (), fun _ _ => .ok (3, 4)⟩

end Instances

/-- C1: the spec claims that after `Bid` and `Deploy` return — on every exit
path, including the one where the export step fails — the count of transient
keystore entries equals the count before the call.  The code violates this:
`ks.Delete` is only called after a successful `ks.Export`, so when `Export`
fails after a successful `ImportECDSA`, both functions return the export
error with the transient entry still in storage (count `1` from an initial
count of `0`). -/
theorem c1_transient_entry_leaks_when_export_fails :
    (Bid cfgAll chainA seExportFail 0 5).ksEntries = 1 ∧
    (Bid cfgAll chainA seExportFail 0 5).result = .error (.lib "Export failed") ∧
    (Deploy cfgAll chainA seExportFail 0 3600 "0xbene").ksEntries = 1 ∧
    (Deploy cfgAll chainA seExportFail 0 3600 "0xbene").result =
      .error (.lib "Export failed") :=
  ⟨rfl, rfl, rfl, rfl⟩

/-- C2 fails as stated: on a rejection text containing both known phrases,
`Bid` returns `HigherBidAlreadySubmitted`, although the text matches the
already-ended phrase — so "AuctionEnded exactly when the text matches the
already-ended phrase" does not hold. -/
theorem c2_counterexample :
    strContains "Auction already ended: There already is a higher bid"
        auctionEndedErrText = true ∧
    (Bid cfgAll chainBothPhrases seAll 0 5).result = .error .higherBid ∧
    (Bid cfgAll chainBothPhrases seAll 0 5).result ≠ .error .auctionEnded :=
  ⟨by decide, rfl, by decide⟩

/-- C2 (amended): for every error returned by the underlying bid submission,
the result is `HigherBidAlreadySubmitted` exactly when the text contains the
higher-bid phrase; `AuctionEnded` exactly when it contains the already-ended
phrase and not the higher-bid phrase (the higher-bid check takes
precedence); and any other error text is returned verbatim. -/
theorem c2_bid_rejection_classification (cfg : Config) (ch : Chain)
    (se : SignerEnv) (ks0 : Nat) (amount : Int) (a k : String) (cid : Nat)
    (s : String)
    (hca : cfg.contractAddr = some a) (hbind : ch.bindOk = true)
    (hbk : cfg.bidderKey = some k)
    (hhx : se.hexOk = true) (hec : se.ecdsaOk = true)
    (him : se.importOk = true) (hxp : se.exportOk = true)
    (hdl : se.deleteOk = true) (hcid : ch.chainId = .ok cid)
    (htr : se.transactorOk = true)
    (hsub : ch.bidSubmit amount = .error s) :
    ((Bid cfg ch se ks0 amount).result = .error .higherBid ↔
        strContains s higherBidErrText = true) ∧
    ((Bid cfg ch se ks0 amount).result = .error .auctionEnded ↔
        (strContains s auctionEndedErrText = true ∧
          strContains s higherBidErrText = false)) ∧
    (strContains s higherBidErrText = false →
      strContains s auctionEndedErrText = false →
      (Bid cfg ch se ks0 amount).result = .error (.lib s)) := by
  have hres : (Bid cfg ch se ks0 amount).result = .error (classifyBidErr s) := by
    simp [Bid, hca, hbind, hbk, hhx, hec, him, hxp, hdl, hcid, htr, hsub]
  rw [hres]
  unfold classifyBidErr
  cases h1 : strContains s higherBidErrText with
  | true => simp
  | false =>
      cases h2 : strContains s auctionEndedErrText with
      | true => simp
      | false => simp

/-- C2 witness: a rejection text matching neither phrase is surfaced
verbatim. -/
theorem c2_witness :
    (Bid cfgAll chainRejectBoom seAll 0 5).result =
      .error (.lib "connection reset by peer") :=
  (c2_bid_rejection_classification cfgAll chainRejectBoom seAll 0 5
      "0xc0ffee" "aabb" 1 "connection reset by peer"
      rfl rfl rfl rfl rfl rfl rfl rfl rfl rfl rfl).2.2 (by decide) (by decide)

/-- C3: for each operation, if a configuration value it requires is absent,
the call returns an error of the configuration kind and performs zero
network calls: the endpoint URL is checked by `NewBlockchainConnection`
before `Dial`, the contract address by `GetAuctionStatus`, `ListAllBids`,
`Bid` and `Stats`, the bidder secret by `Bid`, and the deployer secret by
`Deploy`, each before any network round trip. -/
theorem c3_missing_config_fails_before_network (cfg : Config) (ch : Chain)
    (se : SignerEnv) (ks0 : Nat) (amount duration : Int) (b : String)
    (dialOk : Bool) :
    (cfg.instanceUrl = none →
      (∃ m, (NewBlockchainConnection cfg dialOk).result = .error (.config m)) ∧
      (NewBlockchainConnection cfg dialOk).netCalls = 0) ∧
    (cfg.contractAddr = none →
      ((∃ m, (GetAuctionStatus cfg ch).result = .error (.config m)) ∧
        (GetAuctionStatus cfg ch).netCalls = 0) ∧
      ((∃ m, (ListAllBids cfg ch).result = .error (.config m)) ∧
        (ListAllBids cfg ch).netCalls = 0) ∧
      ((∃ m, (Stats cfg ch).result = .error (.config m)) ∧
        (Stats cfg ch).netCalls = 0) ∧
      ((∃ m, (Bid cfg ch se ks0 amount).result = .error (.config m)) ∧
        (Bid cfg ch se ks0 amount).netCalls = 0)) ∧
    (∀ a, cfg.contractAddr = some a → ch.bindOk = true →
      cfg.bidderKey = none →
      (∃ m, (Bid cfg ch se ks0 amount).result = .error (.config m)) ∧
      (Bid cfg ch se ks0 amount).netCalls = 0) ∧
    (cfg.deployerKey = none →
      (∃ m, (Deploy cfg ch se ks0 duration b).result = .error (.config m)) ∧
      (Deploy cfg ch se ks0 duration b).netCalls = 0) := by
  refine ⟨fun h1 => ?_, fun h2 => ?_, fun a ha hb hk => ?_, fun h4 => ?_⟩
  · simp [NewBlockchainConnection, h1]
  · simp [GetAuctionStatus, ListAllBids, Stats, Bid, h2]
  · simp [Bid, ha, hb, hk]
  · simp [Deploy, h4]

/-- C3 witness: with every variable absent, `GetAuctionStatus` returns a
configuration error without any network call. -/
theorem c3_witness :
    (∃ m, (GetAuctionStatus cfgNone chainA).result =
        .error (GoErr.config m)) ∧
    (GetAuctionStatus cfgNone chainA).netCalls = 0 :=
  ((c3_missing_config_fails_before_network cfgNone chainA seAll 0 5 3600
      "0xbene" true).2.1 rfl).1

/-- C4 fails as stated: the code compares the chain time against
`endTime.Uint64()`, the end time reduced modulo `2^64`.  With a stored end
time of `2^64` and chain time `1`, `GetAuctionStatus` reports
`Ended = true` although the chain time is not greater than the stored end
time. -/
theorem c4_counterexample :
    (GetAuctionStatus cfgAll chainBigEnd).result = .ok ⟨true, 0⟩ ∧
    ¬ ((1 : Nat) > 2 ^ 64) :=
  ⟨rfl, by decide⟩

/-- C4 (amended): `GetAuctionStatus` returns `Ended = true` iff the chain
time is strictly greater than the low 64 bits of the stored end time (the
code truncates the `uint256` end time with `Uint64()`); for end times below
`2^64` this is exactly the strict comparison `chainTime > endTime`, with
equal timestamps not yet ended. -/
theorem c4_ended_strict_on_truncated_end_time (cfg : Config) (ch : Chain)
    (a : String) (et ht hb : Nat)
    (hca : cfg.contractAddr = some a) (hbind : ch.bindOk = true)
    (het : ch.auctionEndTime = .ok et) (hht : ch.headerTime = .ok ht)
    (hhb : ch.highestBid = .ok hb) :
    (GetAuctionStatus cfg ch).result =
      .ok ⟨decide (ht > toUint64 et), toInt64 hb⟩ ∧
    (et < 2 ^ 64 → (ht > toUint64 et ↔ ht > et)) := by
  constructor
  · simp [GetAuctionStatus, hca, hbind, het, hht, hhb]
  · intro hlt
    unfold toUint64
    rw [Nat.mod_eq_of_lt hlt]

/-- C4 witness: on the healthy chain, end time `100` and chain time `101`
give `Ended = true`. -/
theorem c4_witness :
    (GetAuctionStatus cfgAll chainA).result =
      .ok ⟨decide ((101 : Nat) > toUint64 100), toInt64 7⟩ :=
  (c4_ended_strict_on_truncated_end_time cfgAll chainA "0xc0ffee" 100 101 7
      rfl rfl rfl rfl rfl).1

/-- C5: for a fixed log snapshot decoded the same way by both operations,
`Stats().Bids` equals the length of the list `ListAllBids()` returns and
`Stats().Volume` equals the `int64` sum of the amounts of those bids; both
are folds of the same fetched log list.  (`logs.length < 2^63` holds for
every Go slice, whose length is a non-negative `int`.) -/
theorem c5_stats_agrees_with_listbids (cfg : Config) (ch : Chain)
    (a : String) (logs : List EthLog) (bs : List BidRec)
    (hca : cfg.contractAddr = some a)
    (hlogs : ch.filterLogs (bidsQuery a) = .ok logs)
    (habi : ch.abiJsonOk = true)
    (hdec : decodeBids logs = .ok bs)
    (hlen : logs.length < 2 ^ 63) :
    (ListAllBids cfg ch).result = .ok bs ∧
    (Stats cfg ch).result = .ok ⟨bs.length, sumInt64 (bs.map (·.Amount))⟩ := by
  have hbl : bs.length = logs.length := decodeBids_length logs bs hdec
  constructor
  · simp [ListAllBids, hca, hlogs, habi, hdec]
  · have hsl := statsLoop_of_decode logs bs ⟨0, 0⟩ hdec
    have hb2 : (0 : Int) + bs.length < 2 ^ 63 := by rw [hbl]; omega
    have hc : bs.foldl (fun x _ => wrap64 (x + 1)) (0 : Int) = (bs.length : Int) := by
      have := foldl_wrapcount bs 0 le_rfl hb2
      simpa using this
    have hv : sumInt64 (bs.map (·.Amount)) =
        bs.foldl (fun x b => wrap64 (x + b.Amount)) 0 := by
      simp [sumInt64, List.foldl_map]
    simp [Stats, hca, hlogs, habi, hsl, hc, hv]

/-- C5 witness: one decodable log entry of amount `5` gives one listed bid
and stats `{Bids := 1, Volume := 5}`. -/
theorem c5_witness :
    (ListAllBids cfgAll chainA).result = .ok [⟨"0xsend", 5⟩] ∧
    (Stats cfgAll chainA).result = .ok ⟨1, 5⟩ := by
  have h := c5_stats_agrees_with_listbids cfgAll chainA "0xc0ffee" [logA]
      [⟨"0xsend", 5⟩] rfl rfl rfl (by decide) (by decide)
  exact ⟨h.1, h.2.trans (by decide)⟩

/-- C6: with the configuration present and the contract bound,
`GetAuctionStatus` returns a status value iff all three underlying reads
(end time, latest header, highest bid) succeed, and if one fails the call
returns that read's error — never a partial or default status. -/
theorem c6_status_iff_all_reads_succeed (cfg : Config) (ch : Chain)
    (a : String)
    (hca : cfg.contractAddr = some a) (hbind : ch.bindOk = true) :
    ((∃ st, (GetAuctionStatus cfg ch).result = .ok st) ↔
        ((∃ x, ch.auctionEndTime = .ok x) ∧ (∃ x, ch.headerTime = .ok x) ∧
          (∃ x, ch.highestBid = .ok x))) ∧
    (∀ e, ch.auctionEndTime = .error e →
        (GetAuctionStatus cfg ch).result = .error (.lib e)) ∧
    (∀ x e, ch.auctionEndTime = .ok x → ch.headerTime = .error e →
        (GetAuctionStatus cfg ch).result = .error (.lib e)) ∧
    (∀ x y e, ch.auctionEndTime = .ok x → ch.headerTime = .ok y →
        ch.highestBid = .error e →
        (GetAuctionStatus cfg ch).result = .error (.lib e)) := by
  rcases het : ch.auctionEndTime with e1 | et <;>
    rcases hht : ch.headerTime with e2 | htv <;>
      rcases hhb : ch.highestBid with e3 | hbv <;>
        refine ⟨?_, ?_, ?_, ?_⟩ <;>
          simp [GetAuctionStatus, hca, hbind, het, hht, hhb]

/-- C6 witness: on the healthy chain all three reads succeed and a status
value is returned. -/
theorem c6_witness :
    ∃ st, (GetAuctionStatus cfgAll chainA).result = .ok st :=
  (c6_status_iff_all_reads_succeed cfgAll chainA "0xc0ffee" rfl rfl).1.mpr
    ⟨⟨100, rfl⟩, ⟨101, rfl⟩, ⟨7, rfl⟩⟩

/-- C7: when every fetched log entry decodes, `ListAllBids` returns exactly
the entrywise projection of the fetched log list, so the bid at position
`i` is decoded from the log entry at position `i` and log order is
preserved. -/
theorem c7_listbids_in_log_order (cfg : Config) (ch : Chain) (a : String)
    (logs : List EthLog)
    (hca : cfg.contractAddr = some a)
    (hlogs : ch.filterLogs (bidsQuery a) = .ok logs)
    (habi : ch.abiJsonOk = true)
    (hall : ∀ l ∈ logs, isOkB l.unpack = true) :
    (ListAllBids cfg ch).result = .ok (logs.map decodeOne) ∧
    ∀ i (h : i < logs.length),
      (logs.map decodeOne).get ⟨i, by simpa using h⟩ =
        decodeOne (logs.get ⟨i, h⟩) := by
  constructor
  · simp [ListAllBids, hca, hlogs, habi, decodeBids_map logs hall]
  · intro i h
    simp [List.get_eq_getElem]

/-- C7 witness: the single decodable log entry is listed at position `0`. -/
theorem c7_witness :
    (ListAllBids cfgAll chainA).result = .ok ([logA].map decodeOne) :=
  (c7_listbids_in_log_order cfgAll chainA "0xc0ffee" [logA] rfl rfl rfl
      (by decide)).1

/-- C8: when the configuration and signing steps succeed and the underlying
contract-creation submission succeeds, `Deploy` with a positive duration
returns the canonically formatted contract address (`0x` + 40 hex digits)
and transaction hash (`0x` + 64 hex digits), both non-empty. -/
theorem c8_deploy_returns_nonempty_strings (cfg : Config) (ch : Chain)
    (se : SignerEnv) (ks0 : Nat) (duration : Int) (beneficiary k : String)
    (cid addr txh : Nat)
    (_hdur : 0 < duration)
    (hdk : cfg.deployerKey = some k)
    (hhx : se.hexOk = true) (hec : se.ecdsaOk = true)
    (him : se.importOk = true) (hxp : se.exportOk = true)
    (hdl : se.deleteOk = true) (hcid : ch.chainId = .ok cid)
    (htr : se.transactorOk = true)
    (hsub : ch.deploySubmit duration beneficiary = .ok (addr, txh)) :
    (Deploy cfg ch se ks0 duration beneficiary).result =
      .ok (addressString addr, hashString txh) ∧
    addressString addr ≠ "" ∧ (addressString addr).length = 42 ∧
    hashString txh ≠ "" ∧ (hashString txh).length = 66 := by
  have hlen1 : (addressString addr).length = 42 := by
    have h0 : (addressString addr).length =
        ('0' :: 'x' :: hexChars 40 (addr % 2 ^ 160)).length := rfl
    rw [h0]
    simp [length_hexChars]
  have hlen2 : (hashString txh).length = 66 := by
    have h0 : (hashString txh).length =
        ('0' :: 'x' :: hexChars 64 (txh % 2 ^ 256)).length := rfl
    rw [h0]
    simp [length_hexChars]
  refine ⟨?_, ?_, hlen1, ?_, hlen2⟩
  · simp [Deploy, hdk, hhx, hec, him, hxp, hdl, hcid, htr, hsub]
  · intro h
    have h2 := congrArg String.length h
    rw [hlen1] at h2
    exact absurd h2 (by decide)
  · intro h
    have h2 := congrArg String.length h
    rw [hlen2] at h2
    exact absurd h2 (by decide)

/-- C8 witness: a successful deployment on the healthy chain returns the
formatted non-empty address and transaction hash. -/
theorem c8_witness :
    (Deploy cfgAll chainA seAll 0 3600 "0xbene").result =
      .ok (addressString 3, hashString 4) ∧
    addressString 3 ≠ "" ∧ hashString 4 ≠ "" := by
  have h := c8_deploy_returns_nonempty_strings cfgAll chainA seAll 0 3600
      "0xbene" "ccdd" 1 3 4 (by decide) rfl rfl rfl rfl rfl rfl rfl rfl rfl
  exact ⟨h.1, h.2.1, h.2.2.2.1⟩

/-- C9: `Bid` performs no validation of the amount: for every `int64`
amount, including zero and negative values, the transaction value attached
to the submission is exactly that amount. -/
theorem c9_bid_submits_any_amount (cfg : Config) (ch : Chain)
    (se : SignerEnv) (ks0 : Nat) (amount : Int) (a k : String) (cid : Nat)
    (_hrange : -(2 ^ 63) ≤ amount ∧ amount < 2 ^ 63)
    (hca : cfg.contractAddr = some a) (hbind : ch.bindOk = true)
    (hbk : cfg.bidderKey = some k)
    (hhx : se.hexOk = true) (hec : se.ecdsaOk = true)
    (him : se.importOk = true) (hxp : se.exportOk = true)
    (hdl : se.deleteOk = true) (hcid : ch.chainId = .ok cid)
    (htr : se.transactorOk = true) :
    (Bid cfg ch se ks0 amount).submittedValue = some amount := by
  rcases hs : ch.bidSubmit amount with e | u <;>
    simp [Bid, hca, hbind, hbk, hhx, hec, him, hxp, hdl, hcid, htr, hs]

/-- C9 witness: a negative amount `-7` is attached and submitted as is. -/
theorem c9_witness :
    (Bid cfgAll chainA seAll 0 (-7)).submittedValue = some (-7) :=
  c9_bid_submits_any_amount cfgAll chainA seAll 0 (-7) "0xc0ffee" "aabb" 1
    (by decide) rfl rfl rfl rfl rfl rfl rfl rfl rfl rfl

/-- C10: the log query built by `ListAllBids` and `Stats` restricts only the
address — no topic filter and no block range — and if any fetched entry
fails to decode against the bid-increase event schema, both calls return an
error: no bid list and no stats value is produced. -/
theorem c10_undecodable_entry_aborts (cfg : Config) (ch : Chain)
    (a : String) (logs : List EthLog) (l : EthLog)
    (hca : cfg.contractAddr = some a)
    (hlogs : ch.filterLogs (bidsQuery a) = .ok logs)
    (habi : ch.abiJsonOk = true)
    (hmem : l ∈ logs) (hbad : isOkB l.unpack = false) :
    (∀ bs, (ListAllBids cfg ch).result ≠ .ok bs) ∧
    (∀ s, (Stats cfg ch).result ≠ .ok s) ∧
    (bidsQuery a).Topics = [] ∧ (bidsQuery a).FromBlock = none ∧
    (bidsQuery a).ToBlock = none := by
  obtain ⟨e1, he1⟩ := decodeBids_error_of_mem logs l hmem hbad
  obtain ⟨e2, he2⟩ := statsLoop_error_of_mem logs l hmem hbad ⟨0, 0⟩
  refine ⟨?_, ?_, rfl, rfl, rfl⟩
  · intro bs
    simp [ListAllBids, hca, hlogs, habi, he1]
  · intro s
    simp [Stats, hca, hlogs, habi, he2]

/-- C10 witness: with one undecodable entry among the fetched logs, neither
an empty bid list nor zero stats is returned, and the query carries no
topic filter. -/
theorem c10_witness :
    (ListAllBids cfgAll chainBad).result ≠ .ok [] ∧
    (Stats cfgAll chainBad).result ≠ .ok ⟨0, 0⟩ ∧
    (bidsQuery "0xc0ffee").Topics = [] := by
  have h := c10_undecodable_entry_aborts cfgAll chainBad "0xc0ffee"
      [logA, logBad] logBad rfl rfl rfl (by decide) rfl
  exact ⟨h.1 [], h.2.1 ⟨0, 0⟩, h.2.2.1⟩

end Web3Auction
